import Mathlib

/-!
Shallow embedding of `block_model_utils` (src/src/block.rs, src/src/block_model.rs)
together with proofs about its specification.

Modelling conventions:
* `usize` is modelled as `Nat` (the spec never approaches overflow territory) and the
  intermediate `as i64` signed clamping arithmetic is modelled with `Int`, exactly as in
  the source.
* `f32` coordinates and sizes are modelled as `ℚ` (exact arithmetic); the `f32::MAX`
  fold seed of `from_unindexed` is kept as the exact rational value of `f32::MAX`.
  The `fract() == 0.0` test of `gen_inds` becomes `Rat.den = 1`, and the saturating
  `as usize` cast becomes `Int.toNat` (negative values collapse to 0, exactly as the
  Rust float-to-integer cast saturates).
* The `ndarray::Array3` grid is modelled as its shape together with the cell contents
  as a total function; `from_indexed` performs its writes as functional updates in
  input order, so later writes overwrite earlier ones exactly as in the source.
  Out-of-bounds reads panic in the source, so theorems about `block` restrict to
  in-range indices.
* `panic!` / failed `assert!` is modelled as `Except.error` with one error value per
  panic site; recoverable `Result` errors of the CSV loaders keep a separate channel
  (`LoadOutcome.err` versus `LoadOutcome.fatal`).
-/

/-- Real-valued (here: exact rational) world-space position of a block,
mirroring `BlockCoordinates` in src/src/block.rs. -/
structure BlockCoordinates where
  x : ℚ
  y : ℚ
  z : ℚ
deriving DecidableEq

/-- Integer grid address of a block, mirroring `BlockIndex` in src/src/block.rs. -/
structure BlockIndex where
  i : ℕ
  j : ℕ
  k : ℕ
deriving DecidableEq

/-- Cell dimensions of a block, mirroring `BlockSize` in src/src/block.rs. -/
structure BlockSize where
  x_size : ℚ
  y_size : ℚ
  z_size : ℚ
deriving DecidableEq

/-- Capability contract required of payload types, mirroring the trait
`BlockInterface` in src/src/block.rs (deserializability is handled separately by the
CSV loader model). -/
class BlockInterface (B : Type) where
  coordinates : B → BlockCoordinates
  size : B → BlockSize
  index : B → BlockIndex
  set_index : B → BlockIndex → B

/-- Dense 3D grid of optional payloads, mirroring `BlockModel` in
src/src/block_model.rs: `shape` is `blocks.raw_dim()`, `cell` gives the contents at
each address (cells outside `shape` are never written and read as `none`). -/
structure BlockModel (B : Type) where
  shape : ℕ × ℕ × ℕ
  cell : BlockIndex → Option B

/-- Saturating clamp on signed integers, mirroring `num::clamp` at type `i64`. -/
def clampInt (v lo hi : ℤ) : ℤ :=
  if v < lo then lo else if v > hi then hi else v

/-- Saturating clamp on unsigned integers, mirroring `num::clamp` at type `usize`. -/
def clampNat (v lo hi : ℕ) : ℕ :=
  if v < lo then lo else if v > hi then hi else v

namespace BlockModel

/-- Accumulator step of the dimension-finding fold in `BlockModel::from_indexed`
(`i = i.max(ib.i)` and so on for all three components). -/
def dimStep (acc : ℕ × ℕ × ℕ) (ib : BlockIndex) : ℕ × ℕ × ℕ :=
  (max acc.1 ib.i, max acc.2.1 ib.j, max acc.2.2 ib.k)

/-- Construction from pre-indexed payloads, mirroring `BlockModel::from_indexed`:
dimensions are one plus the per-component maximum of the indices (fold seeded at
`(0,0,0)`), and each `(payload, index)` pair is written in input order, overwriting
any previous occupant. -/
def from_indexed {B : Type} (blocks : List B) (inds : List BlockIndex) : BlockModel B :=
  let d := inds.foldl dimStep (0, 0, 0)
  { shape := (d.1 + 1, d.2.1 + 1, d.2.2 + 1)
    cell := (blocks.zip inds).foldl
      (fun f p => fun q => if q = p.2 then some p.1 else f q)
      (fun _ => none) }

/-- Addressed read access, mirroring `BlockModel::block` (the source indexes the
dense array, which panics out of range; theorems using `block` therefore carry
in-range hypotheses). -/
def block {B : Type} (m : BlockModel B) (ind : BlockIndex) : Option B :=
  m.cell ind

/-- Delegation to a dependence strategy, mirroring `BlockModel::dependent_block_inds`. -/
def dependent_block_inds {B : Type} (m : BlockModel B) (ind : BlockIndex)
    (bdi : BlockModel B → BlockIndex → List BlockIndex) : List BlockIndex :=
  bdi m ind

end BlockModel

/-- Predecessor strategy, mirroring `impl BlockDependenceInterface for SquarePreds`:
targets layer `k+1`, returns empty when that layer is outside the vertical extent,
and otherwise enumerates the clamped 3×3 horizontal footprint in row-major order
without an occupancy filter. -/
def SquarePreds.inds {B : Type} (mdl : BlockModel B) (ind : BlockIndex) : List BlockIndex :=
  let k := ind.k + 1
  if k ≥ mdl.shape.2.2 then [] else
  let i_low := (clampInt ((ind.i : ℤ) - 1) 0 (mdl.shape.1 : ℤ)).toNat
  let i_high := clampNat (ind.i + 2) 0 mdl.shape.1
  let j_low := (clampInt ((ind.j : ℤ) - 1) 0 (mdl.shape.2.1 : ℤ)).toNat
  let j_high := clampNat (ind.j + 2) 0 mdl.shape.2.1
  (List.range' i_low (i_high - i_low)).flatMap fun i =>
    (List.range' j_low (j_high - j_low)).map fun j => (⟨i, j, k⟩ : BlockIndex)

/-- Successor strategy, mirroring `impl BlockDependenceInterface for SquareSuccs`:
returns empty at `k = 0` and otherwise targets layer `k-1` with the same unfiltered
clamped footprint. -/
def SquareSuccs.inds {B : Type} (mdl : BlockModel B) (ind : BlockIndex) : List BlockIndex :=
  if ind.k = 0 then [] else
  let k := ind.k - 1
  let i_low := (clampInt ((ind.i : ℤ) - 1) 0 (mdl.shape.1 : ℤ)).toNat
  let i_high := clampNat (ind.i + 2) 0 mdl.shape.1
  let j_low := (clampInt ((ind.j : ℤ) - 1) 0 (mdl.shape.2.1 : ℤ)).toNat
  let j_high := clampNat (ind.j + 2) 0 mdl.shape.2.1
  (List.range' i_low (i_high - i_low)).flatMap fun i =>
    (List.range' j_low (j_high - j_low)).map fun j => (⟨i, j, k⟩ : BlockIndex)

/-- Adjacency strategy, mirroring `impl BlockDependenceInterface for SquareAdj`:
targets the same layer `k` and keeps only those footprint candidates whose cell in
the model is occupied. -/
def SquareAdj.inds {B : Type} (mdl : BlockModel B) (ind : BlockIndex) : List BlockIndex :=
  let k := ind.k
  let i_low := (clampInt ((ind.i : ℤ) - 1) 0 (mdl.shape.1 : ℤ)).toNat
  let i_high := clampNat (ind.i + 2) 0 mdl.shape.1
  let j_low := (clampInt ((ind.j : ℤ) - 1) 0 (mdl.shape.2.1 : ℤ)).toNat
  let j_high := clampNat (ind.j + 2) 0 mdl.shape.2.1
  ((List.range' i_low (i_high - i_low)).flatMap fun i =>
    (List.range' j_low (j_high - j_low)).map fun j => (⟨i, j, k⟩ : BlockIndex)).filter
      fun q => (mdl.block q).isSome

/-- Predicate written from the spec sentence for C1: the payload associated with the
last input pair carrying index `q`, or `none` when no input pair mapped there. -/
def lastPayloadAt {B : Type} (pairs : List (B × BlockIndex)) (q : BlockIndex) : Option B :=
  (pairs.reverse.find? fun p => decide (p.2 = q)).map Prod.fst

/-- Horizontal candidate range written from the spec sentence for C2: all values in
`c-1..=c+1` clamped (intersected) with `[0, extent)`, in increasing order. -/
def footprintSpec (extent c : ℕ) : List ℕ :=
  (List.range extent).filter fun a => decide (c ≤ a + 1 ∧ a ≤ c + 1)

/-- Predecessor enumeration written from the spec sentences for C2: empty when `k+1`
is outside the vertical extent, otherwise the clamped footprint at layer `k+1` in
row-major (`i` outer, `j` inner) order. -/
def predsSpec (s : ℕ × ℕ × ℕ) (ind : BlockIndex) : List BlockIndex :=
  if ind.k + 1 < s.2.2 then
    (footprintSpec s.1 ind.i).flatMap fun a =>
      (footprintSpec s.2.1 ind.j).map fun b => (⟨a, b, ind.k + 1⟩ : BlockIndex)
  else []

/-- Successor enumeration written from the spec sentences for C4: empty when `k = 0`,
otherwise the clamped footprint at layer `k-1` in row-major order. -/
def succsSpec (s : ℕ × ℕ × ℕ) (ind : BlockIndex) : List BlockIndex :=
  if ind.k = 0 then []
  else
    (footprintSpec s.1 ind.i).flatMap fun a =>
      (footprintSpec s.2.1 ind.j).map fun b => (⟨a, b, ind.k - 1⟩ : BlockIndex)

/-- Panic sites of `from_unindexed`/`gen_inds`: the `panic!()` on an empty input or
inconsistent sizes, and the `assert!` on a non-integral index quotient. -/
inductive BmError where
  | inconsistentSize
  | misaligned
deriving DecidableEq

/-- Exact rational value of `f32::MAX`, the seed of the origin-finding fold in
`BlockModel::from_unindexed`. -/
def f32MAX : ℚ := 340282346638528859811704183484516925440

namespace BlockModel

/-- Origin computation of `BlockModel::from_unindexed`: per-axis minimum of all
payload coordinates, folded from the seed `f32::MAX`. -/
def originOf {B : Type} [BlockInterface B] (blocks : List B) : BlockCoordinates :=
  let m := blocks.foldl
    (fun (acc : ℚ × ℚ × ℚ) b =>
      (min acc.1 (BlockInterface.coordinates b).x,
       min acc.2.1 (BlockInterface.coordinates b).y,
       min acc.2.2 (BlockInterface.coordinates b).z))
    (f32MAX, f32MAX, f32MAX)
  ⟨m.1, m.2.1, m.2.2⟩

/-- Block-size extraction of `BlockModel::from_unindexed`: `none` (leading to the
`panic!()`) when the input is empty or any payload's size differs from the head. -/
def dimsOf {B : Type} [BlockInterface B] (blocks : List B) : Option BlockSize :=
  match blocks with
  | [] => none
  | head :: tail =>
      if tail.all fun b => decide (BlockInterface.size head = BlockInterface.size b) then
        some (BlockInterface.size head)
      else none

/-- Per-payload body of `BlockModel::gen_inds`: divide the origin-relative
coordinates by the block size, `assert!` that all three quotients have zero
fractional part, and cast to `usize` (saturating at zero). -/
def genInd {B : Type} [BlockInterface B] (origin : BlockCoordinates) (block_size : BlockSize)
    (ub : B) : Except BmError BlockIndex :=
  let coords := BlockInterface.coordinates ub
  let i := (coords.x - origin.x) / block_size.x_size
  let j := (coords.y - origin.y) / block_size.y_size
  let k := (coords.z - origin.z) / block_size.z_size
  if i.den = 1 ∧ j.den = 1 ∧ k.den = 1 then
    Except.ok ⟨i.num.toNat, j.num.toNat, k.num.toNat⟩
  else Except.error BmError.misaligned

/-- Index generation of `BlockModel::gen_inds`, one index per payload in input
order; the first failing `assert!` aborts the whole call. -/
def gen_inds {B : Type} [BlockInterface B] (blocks : List B) (origin : BlockCoordinates)
    (block_size : BlockSize) : Except BmError (List BlockIndex) :=
  match blocks with
  | [] => Except.ok []
  | b :: rest =>
      match genInd origin block_size b with
      | Except.error e => Except.error e
      | Except.ok ind =>
          match gen_inds rest origin block_size with
          | Except.error e => Except.error e
          | Except.ok inds => Except.ok (ind :: inds)

/-- Construction from unindexed payloads, mirroring `BlockModel::from_unindexed`:
compute the origin, check that all sizes agree (`panic!` otherwise), generate the
indices, assign each index back onto its payload, and delegate to `from_indexed`. -/
def from_unindexed {B : Type} [BlockInterface B] (blocks : List B) :
    Except BmError (BlockModel B) :=
  match dimsOf blocks with
  | none => Except.error BmError.inconsistentSize
  | some block_size =>
      match gen_inds blocks (originOf blocks) block_size with
      | Except.error e => Except.error e
      | Except.ok inds =>
          Except.ok (from_indexed
            ((blocks.zip inds).map fun p => BlockInterface.set_index p.1 p.2) inds)

end BlockModel

/-- Inverse index map written from the spec sentence for C6: `(index * size) + origin`
per axis. -/
def indexToCoords (q : BlockIndex) (block_size : BlockSize) (origin : BlockCoordinates) :
    BlockCoordinates :=
  ⟨q.i * block_size.x_size + origin.x,
   q.j * block_size.y_size + origin.y,
   q.k * block_size.z_size + origin.z⟩

/-- Grid alignment of one payload as the spec defines it for C6/C7: every per-axis
origin-relative quotient is an exact non-negative value. -/
def quotientsNonneg {B : Type} [BlockInterface B] (origin : BlockCoordinates)
    (block_size : BlockSize) (b : B) : Prop :=
  0 ≤ ((BlockInterface.coordinates b).x - origin.x) / block_size.x_size
    ∧ 0 ≤ ((BlockInterface.coordinates b).y - origin.y) / block_size.y_size
    ∧ 0 ≤ ((BlockInterface.coordinates b).z - origin.z) / block_size.z_size

/-- Integrality of one payload's three quotients, the condition tested by the
`assert!` in `gen_inds`. -/
def alignedTriple {B : Type} [BlockInterface B] (origin : BlockCoordinates)
    (block_size : BlockSize) (b : B) : Prop :=
  (((BlockInterface.coordinates b).x - origin.x) / block_size.x_size).den = 1
    ∧ (((BlockInterface.coordinates b).y - origin.y) / block_size.y_size).den = 1
    ∧ (((BlockInterface.coordinates b).z - origin.z) / block_size.z_size).den = 1

instance {B : Type} [BlockInterface B] (origin : BlockCoordinates)
    (block_size : BlockSize) (b : B) : Decidable (alignedTriple origin block_size b) :=
  inferInstanceAs (Decidable (_ ∧ _ ∧ _))

instance {B : Type} [BlockInterface B] (origin : BlockCoordinates)
    (block_size : BlockSize) (b : B) : Decidable (quotientsNonneg origin block_size b) :=
  inferInstanceAs (Decidable (_ ∧ _ ∧ _))

/-- Outcome of a CSV bulk load: a constructed model, a recoverable error returned to
the caller (the `?` operator in the source), or a fatal panic inside
`from_unindexed` (which the `Result` channel of the source does not capture). -/
inductive LoadOutcome (E B : Type) where
  | ok (m : BlockModel B)
  | err (e : E)
  | fatal (p : BmError)

/-- Row collection loop shared by both CSV loaders: deserialized rows are consumed in
order and the first failing row is returned through the `?` operator. -/
def readBlocks {E B : Type} (rows : List (Except E B)) : Except E (List B) :=
  match rows with
  | [] => Except.ok []
  | r :: rest =>
      match r with
      | Except.error e => Except.error e
      | Except.ok b =>
          match readBlocks rest with
          | Except.error e => Except.error e
          | Except.ok bs => Except.ok (b :: bs)

/-- First failing row of a CSV source, written from the spec sentence for C9. -/
def firstRowError {E B : Type} (rows : List (Except E B)) : Option E :=
  rows.findSome? fun r =>
    match r with
    | Except.error e => some e
    | Except.ok _ => none

/-- Unindexed CSV loader, mirroring `BlockModel::from_unindexed_csv`: the source is
the reader-open result holding the stream of per-row deserialization results; any
row failure is returned to the caller, and only then is `from_unindexed` run on the
collected payloads. -/
def from_unindexed_csv {E B : Type} [BlockInterface B]
    (src : Except E (List (Except E B))) : LoadOutcome E B :=
  match src with
  | Except.error e => LoadOutcome.err e
  | Except.ok rows =>
      match readBlocks rows with
      | Except.error e => LoadOutcome.err e
      | Except.ok blocks =>
          match BlockModel.from_unindexed blocks with
          | Except.error p => LoadOutcome.fatal p
          | Except.ok m => LoadOutcome.ok m

/-- Indexed CSV loader, mirroring `BlockModel::from_indexed_csv`: each row's payload
is collected together with its own `index()`, then `from_indexed` is called. -/
def from_indexed_csv {E B : Type} [BlockInterface B]
    (src : Except E (List (Except E B))) : LoadOutcome E B :=
  match src with
  | Except.error e => LoadOutcome.err e
  | Except.ok rows =>
      match readBlocks rows with
      | Except.error e => LoadOutcome.err e
      | Except.ok blocks =>
          LoadOutcome.ok (BlockModel.from_indexed blocks
            (blocks.map fun b => BlockInterface.index b))

/-- Concrete payload type used for witnesses: a record satisfying the block
capability contract. -/
structure Block where
  coords : BlockCoordinates
  bsize : BlockSize
  bindex : BlockIndex
deriving DecidableEq

instance : BlockInterface Block where
  coordinates b := b.coords
  size b := b.bsize
  index b := b.bindex
  set_index b q := { b with bindex := q }

/-- Index list of the fully occupied 2×2×2 grid of the C3 scenario. -/
def cubeInds : List BlockIndex :=
  [⟨0, 0, 0⟩, ⟨0, 0, 1⟩, ⟨0, 1, 0⟩, ⟨0, 1, 1⟩, ⟨1, 0, 0⟩, ⟨1, 0, 1⟩, ⟨1, 1, 0⟩, ⟨1, 1, 1⟩]

/-- Fully occupied 2×2×2 model of the C3 scenario (payloads are unit values). -/
def cubeModel : BlockModel Unit :=
  BlockModel.from_indexed (List.replicate 8 ()) cubeInds

/-- First concrete payload of the C6 witness scenario. -/
def w6b1 : Block := ⟨⟨0, 0, 0⟩, ⟨1, 1, 2⟩, ⟨0, 0, 0⟩⟩

/-- Second concrete payload of the C6 witness scenario. -/
def w6b2 : Block := ⟨⟨2, 3, 4⟩, ⟨1, 1, 2⟩, ⟨0, 0, 0⟩⟩

/-- Payload list of the C6 witness scenario: two properly aligned blocks of size
`(1,1,2)` at coordinates `(0,0,0)` and `(2,3,4)`. -/
def w6blocks : List Block := [w6b1, w6b2]

/-- First payload of the C7 counterexample: coordinates at the origin corner. -/
def negQuotB1 : Block := ⟨⟨-1, 0, 0⟩, ⟨-1, 1, 1⟩, ⟨0, 0, 0⟩⟩

/-- Second payload of the C7 counterexample: its x-quotient relative to the computed
origin `-1` and the (negative) common x-size `-1` is the exact integer `-1`. -/
def negQuotB2 : Block := ⟨⟨0, 0, 0⟩, ⟨-1, 1, 1⟩, ⟨0, 0, 0⟩⟩

/-- Payload list of the C7 counterexample: both blocks share size `(-1,1,1)`. -/
def negQuotBlocks : List Block := [negQuotB1, negQuotB2]

/-- Payload list with two different reported sizes, for the C7 witness. -/
def mismatchBlocks : List Block :=
  [⟨⟨0, 0, 0⟩, ⟨1, 1, 1⟩, ⟨0, 0, 0⟩⟩, ⟨⟨1, 0, 0⟩, ⟨2, 1, 1⟩, ⟨0, 0, 0⟩⟩]

/-- Payload list with a fractional index quotient (`1/2` on the x-axis), for the C7
witness. -/
def misalignedBlocks : List Block :=
  [⟨⟨0, 0, 0⟩, ⟨2, 1, 1⟩, ⟨0, 0, 0⟩⟩, ⟨⟨1, 0, 0⟩, ⟨2, 1, 1⟩, ⟨0, 0, 0⟩⟩]

/-- Row stream of the C9 witness: one well-formed row followed by a failing row
(error code 7). -/
def w9rows : List (Except ℕ Block) :=
  [Except.ok ⟨⟨0, 0, 0⟩, ⟨1, 1, 1⟩, ⟨0, 0, 0⟩⟩, Except.error 7]

lemma foldl_write_eq_lastPayloadAt {B : Type} (pairs : List (B × BlockIndex))
    (f0 : BlockIndex → Option B) (q : BlockIndex) :
    (pairs.foldl (fun f p => fun q' => if q' = p.2 then some p.1 else f q') f0) q
      = ((lastPayloadAt pairs q).or (f0 q)) := by
  induction pairs generalizing f0 with
  | nil => simp [lastPayloadAt]
  | cons p rest ih =>
      simp only [List.foldl_cons]
      rw [ih]
      simp only [lastPayloadAt, List.reverse_cons, List.find?_append]
      cases h : rest.reverse.find? (fun p => decide (p.2 = q)) with
      | some r => simp [h, Option.or]
      | none =>
          simp only [h, Option.or, List.find?]
          by_cases hq : p.2 = q
          · simp [hq]
          · have hqq : q ≠ p.2 := fun hh => hq hh.symm
            simp [hq, hqq]

lemma from_indexed_cell {B : Type} (blocks : List B) (inds : List BlockIndex)
    (q : BlockIndex) :
    (BlockModel.from_indexed blocks inds).cell q = lastPayloadAt (blocks.zip inds) q := by
  have hc : (BlockModel.from_indexed blocks inds).cell
      = (blocks.zip inds).foldl
          (fun f p => fun q' => if q' = p.2 then some p.1 else f q') (fun _ => none) := rfl
  rw [hc, foldl_write_eq_lastPayloadAt]
  cases lastPayloadAt (blocks.zip inds) q <;> simp [Option.or]

/-- Claim C1: for every model built by `from_indexed` from equal-length sequences of
payloads and indices, `block index` returns the payload of the last input pair whose
index equals `index` (last write wins), or `none` when no input pair mapped there;
stated for in-range indices, since out-of-range reads panic in the source. -/
theorem from_indexed_block_last_write_wins {B : Type}
    (blocks : List B) (inds : List BlockIndex)
    (hlen : blocks.length = inds.length) (q : BlockIndex)
    (hq : q.i < (BlockModel.from_indexed blocks inds).shape.1
        ∧ q.j < (BlockModel.from_indexed blocks inds).shape.2.1
        ∧ q.k < (BlockModel.from_indexed blocks inds).shape.2.2) :
    (BlockModel.from_indexed blocks inds).block q = lastPayloadAt (blocks.zip inds) q := by
  exact from_indexed_cell blocks inds q

/-- Witness for C1 at a concrete input with a duplicated index: the later payload wins. -/
theorem from_indexed_block_last_write_wins_witness :
    (BlockModel.from_indexed [10, 20] [⟨0, 0, 0⟩, ⟨0, 0, 0⟩] : BlockModel ℕ).block ⟨0, 0, 0⟩
      = some 20 := by
  rw [from_indexed_block_last_write_wins [10, 20] [⟨0, 0, 0⟩, ⟨0, 0, 0⟩] (by decide)
    ⟨0, 0, 0⟩ ⟨by decide, by decide, by decide⟩]
  decide

/-- Claim C10: `from_indexed` on empty inputs yields a 1×1×1 grid whose single cell
is absent, because the dimension fold is seeded at `(0,0,0)`. -/
theorem from_indexed_empty_input :
    (BlockModel.from_indexed ([] : List Unit) []).shape = (1, 1, 1)
      ∧ (BlockModel.from_indexed ([] : List Unit) []).block ⟨0, 0, 0⟩ = none := by
  exact ⟨rfl, rfl⟩

lemma clampInt_lo (c e : ℕ) :
    (clampInt ((c : ℤ) - 1) 0 (e : ℤ)).toNat = min (c - 1) e := by
  unfold clampInt
  split_ifs <;> omega

lemma clampNat_hi (c e : ℕ) : clampNat (c + 2) 0 e = min (c + 2) e := by
  unfold clampNat
  split_ifs <;> omega

lemma filter_range_ge (lo n : ℕ) :
    (List.range n).filter (fun a => decide (lo ≤ a)) = List.range' lo (n - lo) := by
  induction n with
  | zero => simp
  | succ n ih =>
      rw [List.range_succ, List.filter_append, ih]
      by_cases h : lo ≤ n
      · rw [show List.filter (fun a => decide (lo ≤ a)) [n] = [n] by simp [h],
          show n + 1 - lo = (n - lo) + 1 by omega, List.range'_concat,
          show lo + 1 * (n - lo) = n by omega]
      · rw [show List.filter (fun a => decide (lo ≤ a)) [n] = [] by simp [h],
          show n - lo = 0 by omega, show n + 1 - lo = 0 by omega]
        simp

lemma filter_range_Ico (lo hi n : ℕ) (h : hi ≤ n) :
    (List.range n).filter (fun a => decide (lo ≤ a ∧ a < hi)) = List.range' lo (hi - lo) := by
  induction n with
  | zero =>
      have h0 : hi = 0 := by omega
      subst h0
      simp
  | succ n ih =>
      by_cases h2 : hi ≤ n
      · rw [List.range_succ, List.filter_append, ih h2]
        have h3 : ¬ (lo ≤ n ∧ n < hi) := by omega
        simp [h3]
      · have h3 : hi = n + 1 := by omega
        subst h3
        rw [← filter_range_ge lo (n + 1)]
        apply List.filter_congr
        intro a ha
        rw [List.mem_range] at ha
        exact decide_eq_decide.mpr (by omega)

lemma footprint_range_eq (e c : ℕ) :
    List.range' ((clampInt ((c : ℤ) - 1) 0 (e : ℤ)).toNat)
      (clampNat (c + 2) 0 e - (clampInt ((c : ℤ) - 1) 0 (e : ℤ)).toNat)
      = footprintSpec e c := by
  rw [clampInt_lo, clampNat_hi, footprintSpec,
    ← filter_range_Ico (min (c - 1) e) (min (c + 2) e) e (by omega)]
  apply List.filter_congr
  intro a ha
  rw [List.mem_range] at ha
  exact decide_eq_decide.mpr (by omega)

lemma mem_gridList (l1 l2 : List ℕ) (k0 : ℕ) (q : BlockIndex) :
    q ∈ (l1.flatMap fun a => l2.map fun b => (⟨a, b, k0⟩ : BlockIndex))
      ↔ (q.i ∈ l1 ∧ q.j ∈ l2 ∧ q.k = k0) := by
  obtain ⟨qi, qj, qk⟩ := q
  simp only [List.mem_flatMap, List.mem_map]
  constructor
  · rintro ⟨a, ha, b, hb, hq⟩
    cases hq
    exact ⟨ha, hb, rfl⟩
  · rintro ⟨h1, h2, h3⟩
    exact ⟨qi, h1, qj, h2, by rw [h3]⟩

lemma length_gridList (l1 l2 : List ℕ) (k0 : ℕ) :
    (l1.flatMap fun a => l2.map fun b => (⟨a, b, k0⟩ : BlockIndex)).length
      = l1.length * l2.length := by
  induction l1 with
  | nil => simp
  | cons a l ih =>
      simp [List.flatMap_cons, ih]
      ring

lemma mem_footprintSpec (e c a : ℕ) :
    a ∈ footprintSpec e c ↔ (c ≤ a + 1 ∧ a ≤ c + 1 ∧ a < e) := by
  simp only [footprintSpec, List.mem_filter, List.mem_range, decide_eq_true_eq]
  omega

/-- Claim C2: the Predecessors strategy returns the empty list when `k+1` is outside
the vertical extent, and otherwise all candidates of the 3×3 horizontal footprint
clamped to the grid at layer `k+1`, in row-major order with no occupancy filter and
at most 9 entries. -/
theorem preds_strategy_matches_spec {B : Type} (m : BlockModel B) (ind : BlockIndex) :
    SquarePreds.inds m ind = predsSpec m.shape ind
      ∧ (SquarePreds.inds m ind).length ≤ 9 := by
  constructor
  · simp only [SquarePreds.inds, predsSpec]
    by_cases hk : ind.k + 1 ≥ m.shape.2.2
    · rw [if_pos hk, if_neg (by omega)]
    · rw [if_neg hk, if_pos (by omega)]
      simp only [footprint_range_eq]
  · simp only [SquarePreds.inds]
    by_cases hk : ind.k + 1 ≥ m.shape.2.2
    · rw [if_pos hk]
      simp
    · rw [if_neg hk, length_gridList, List.length_range', List.length_range']
      have h1 : clampNat (ind.i + 2) 0 m.shape.1
          - (clampInt ((ind.i : ℤ) - 1) 0 (m.shape.1 : ℤ)).toNat ≤ 3 := by
        rw [clampInt_lo, clampNat_hi]; omega
      have h2 : clampNat (ind.j + 2) 0 m.shape.2.1
          - (clampInt ((ind.j : ℤ) - 1) 0 (m.shape.2.1 : ℤ)).toNat ≤ 3 := by
        rw [clampInt_lo, clampNat_hi]; omega
      calc _ ≤ 3 * 3 := Nat.mul_le_mul h1 h2
        _ ≤ 9 := by omega

/-- Claim C4: the Successors strategy returns the empty list at `k = 0` and otherwise
the same unfiltered clamped footprint at layer `k-1` in row-major order; moreover
Predecessors at the topmost layer and Successors at `k = 0` both return empty lists. -/
theorem succs_strategy_matches_spec {B : Type} (m : BlockModel B) (ind : BlockIndex) :
    SquareSuccs.inds m ind = succsSpec m.shape ind
      ∧ (∀ i j : ℕ, SquarePreds.inds m ⟨i, j, m.shape.2.2 - 1⟩ = [])
      ∧ (∀ i j : ℕ, SquareSuccs.inds m ⟨i, j, 0⟩ = []) := by
  refine ⟨?_, ?_, ?_⟩
  · simp only [SquareSuccs.inds, succsSpec]
    by_cases hk : ind.k = 0
    · rw [if_pos hk, if_pos hk]
    · rw [if_neg hk, if_neg hk]
      simp only [footprint_range_eq]
  · intro i j
    simp only [SquarePreds.inds]
    rw [if_pos (by omega)]
  · intro i j
    simp only [SquareSuccs.inds]
    simp

/-- Claim C5: the Adjacency strategy returns exactly the clamped same-layer footprint
candidates whose cell is occupied; it never returns an absent cell and includes the
center whenever the center's cell is occupied (stated for in-range center indices,
since the source's `block` lookups panic out of range). -/
theorem adjacency_occupancy_filter {B : Type} (m : BlockModel B) (ind : BlockIndex)
    (hin : ind.i < m.shape.1 ∧ ind.j < m.shape.2.1 ∧ ind.k < m.shape.2.2) :
    (∀ q, q ∈ SquareAdj.inds m ind
        ↔ (q.k = ind.k ∧ ind.i ≤ q.i + 1 ∧ q.i ≤ ind.i + 1 ∧ q.i < m.shape.1
            ∧ ind.j ≤ q.j + 1 ∧ q.j ≤ ind.j + 1 ∧ q.j < m.shape.2.1
            ∧ (m.block q).isSome = true))
      ∧ ((m.block ind).isSome = true → ind ∈ SquareAdj.inds m ind) := by
  have hmem : ∀ q, q ∈ SquareAdj.inds m ind
      ↔ (q.k = ind.k ∧ ind.i ≤ q.i + 1 ∧ q.i ≤ ind.i + 1 ∧ q.i < m.shape.1
          ∧ ind.j ≤ q.j + 1 ∧ q.j ≤ ind.j + 1 ∧ q.j < m.shape.2.1
          ∧ (m.block q).isSome = true) := by
    intro q
    simp only [SquareAdj.inds, footprint_range_eq, List.mem_filter, mem_gridList,
      mem_footprintSpec]
    tauto
  refine ⟨hmem, fun h => (hmem ind).mpr ?_⟩
  exact ⟨rfl, by omega, by omega, hin.1, by omega, by omega, hin.2.1, h⟩

/-- Witness for C5 at a concrete input: the 2×2×2 occupied cube, center `(0,0,0)`. -/
theorem adjacency_occupancy_filter_witness :
    (⟨1, 1, 0⟩ : BlockIndex) ∈ SquareAdj.inds cubeModel ⟨0, 0, 0⟩
      ∧ (⟨0, 0, 0⟩ : BlockIndex) ∈ SquareAdj.inds cubeModel ⟨0, 0, 0⟩ := by
  have h := adjacency_occupancy_filter cubeModel ⟨0, 0, 0⟩ ⟨by decide, by decide, by decide⟩
  exact ⟨(h.1 ⟨1, 1, 0⟩).mpr ⟨rfl, by decide, by decide, by decide, by decide, by decide,
    by decide, by decide⟩, h.2 (by decide)⟩

/-- Claim C3 (counterexample): on the fully occupied 2×2×2 grid, the Predecessors
strategy at `(0,0,1)` targets layer `k+1 = 2`, which is outside the vertical
extent, so it returns the empty list rather than the claimed four layer-0 indices. -/
theorem preds_cube_counterexample :
    BlockModel.dependent_block_inds cubeModel ⟨0, 0, 1⟩ SquarePreds.inds = []
      ∧ BlockModel.dependent_block_inds cubeModel ⟨0, 0, 1⟩ SquarePreds.inds
        ≠ [⟨0, 0, 0⟩, ⟨1, 0, 0⟩, ⟨0, 1, 0⟩, ⟨1, 1, 0⟩]
      ∧ BlockModel.dependent_block_inds cubeModel ⟨0, 0, 1⟩ SquarePreds.inds
        ≠ [⟨0, 0, 0⟩, ⟨0, 1, 0⟩, ⟨1, 0, 0⟩, ⟨1, 1, 0⟩] := by
  refine ⟨by decide, by decide, by decide⟩

/-- Claim C3 (amended): on the fully occupied 2×2×2 grid the Predecessors strategy at
`(0,0,1)` returns the empty list, and it is the Successors strategy at `(0,0,1)` that
returns exactly the four layer-0 indices of the full 2×2 footprint, in row-major
order with no out-of-range entries. -/
theorem succs_cube_full_footprint :
    BlockModel.dependent_block_inds cubeModel ⟨0, 0, 1⟩ SquareSuccs.inds
        = [⟨0, 0, 0⟩, ⟨0, 1, 0⟩, ⟨1, 0, 0⟩, ⟨1, 1, 0⟩]
      ∧ BlockModel.dependent_block_inds cubeModel ⟨0, 0, 1⟩ SquarePreds.inds = [] := by
  refine ⟨by decide, by decide⟩

lemma dimFold_acc_le (l : List BlockIndex) (acc : ℕ × ℕ × ℕ) :
    acc.1 ≤ (l.foldl BlockModel.dimStep acc).1
      ∧ acc.2.1 ≤ (l.foldl BlockModel.dimStep acc).2.1
      ∧ acc.2.2 ≤ (l.foldl BlockModel.dimStep acc).2.2 := by
  induction l generalizing acc with
  | nil => simp
  | cons a l ih =>
      simp only [List.foldl_cons]
      have h := ih (BlockModel.dimStep acc a)
      refine ⟨le_trans ?_ h.1, le_trans ?_ h.2.1, le_trans ?_ h.2.2⟩ <;>
        (simp only [BlockModel.dimStep]; omega)

lemma mem_dimFold_le (l : List BlockIndex) (q : BlockIndex) :
    ∀ acc : ℕ × ℕ × ℕ, q ∈ l →
      q.i ≤ (l.foldl BlockModel.dimStep acc).1
        ∧ q.j ≤ (l.foldl BlockModel.dimStep acc).2.1
        ∧ q.k ≤ (l.foldl BlockModel.dimStep acc).2.2 := by
  induction l with
  | nil => intro acc h; cases h
  | cons a l ih =>
      intro acc h
      simp only [List.foldl_cons]
      rcases List.mem_cons.mp h with rfl | h2
      · have h3 := dimFold_acc_le l (BlockModel.dimStep acc q)
        refine ⟨le_trans ?_ h3.1, le_trans ?_ h3.2.1, le_trans ?_ h3.2.2⟩ <;>
          (simp only [BlockModel.dimStep]; omega)
      · exact ih (BlockModel.dimStep acc a) h2

/-- Claim C8: every index supplied to `from_indexed` lies strictly inside the grid
dimensions computed as one plus the per-component maximum, so every write during
construction is within bounds and no out-of-range abort can occur. -/
theorem from_indexed_indices_in_bounds {B : Type} (blocks : List B)
    (inds : List BlockIndex) (q : BlockIndex) (hq : q ∈ inds) :
    q.i < (BlockModel.from_indexed blocks inds).shape.1
      ∧ q.j < (BlockModel.from_indexed blocks inds).shape.2.1
      ∧ q.k < (BlockModel.from_indexed blocks inds).shape.2.2 := by
  have h := mem_dimFold_le inds q (0, 0, 0) hq
  have hs1 : (BlockModel.from_indexed blocks inds).shape.1
      = (inds.foldl BlockModel.dimStep (0, 0, 0)).1 + 1 := rfl
  have hs2 : (BlockModel.from_indexed blocks inds).shape.2.1
      = (inds.foldl BlockModel.dimStep (0, 0, 0)).2.1 + 1 := rfl
  have hs3 : (BlockModel.from_indexed blocks inds).shape.2.2
      = (inds.foldl BlockModel.dimStep (0, 0, 0)).2.2 + 1 := rfl
  rw [hs1, hs2, hs3]
  exact ⟨by omega, by omega, by omega⟩

/-- Witness for C8 at a concrete input whose index components differ. -/
theorem from_indexed_indices_in_bounds_witness :
    (⟨5, 0, 2⟩ : BlockIndex) ∈ ([⟨5, 0, 2⟩, ⟨1, 3, 0⟩] : List BlockIndex)
      ∧ (5 < (BlockModel.from_indexed [(), ()] [⟨5, 0, 2⟩, ⟨1, 3, 0⟩]).shape.1
          ∧ 0 < (BlockModel.from_indexed [(), ()] [⟨5, 0, 2⟩, ⟨1, 3, 0⟩]).shape.2.1
          ∧ 2 < (BlockModel.from_indexed [(), ()] [⟨5, 0, 2⟩, ⟨1, 3, 0⟩]).shape.2.2) := by
  exact ⟨by decide,
    from_indexed_indices_in_bounds [(), ()] [⟨5, 0, 2⟩, ⟨1, 3, 0⟩] ⟨5, 0, 2⟩ (by decide)⟩

lemma gen_inds_get {B : Type} [BlockInterface B] (blocks : List B)
    (origin : BlockCoordinates) (bs : BlockSize) :
    ∀ (inds : List BlockIndex), BlockModel.gen_inds blocks origin bs = Except.ok inds →
      ∀ (n : ℕ) (hn : n < blocks.length) (hn2 : n < inds.length),
        BlockModel.genInd origin bs (blocks.get ⟨n, hn⟩) = Except.ok (inds.get ⟨n, hn2⟩) := by
  induction blocks with
  | nil =>
      intro inds h n hn hn2
      exact absurd hn (by simp)
  | cons b rest ih =>
      intro inds h n hn hn2
      simp only [BlockModel.gen_inds] at h
      cases hg : BlockModel.genInd origin bs b with
      | error e => rw [hg] at h; exact Except.noConfusion h
      | ok ind =>
          rw [hg] at h
          cases hr : BlockModel.gen_inds rest origin bs with
          | error e => rw [hr] at h; exact Except.noConfusion h
          | ok inds' =>
              rw [hr] at h
              have hinds : ind :: inds' = inds := by
                injection h
              subst hinds
              cases n with
              | zero => simpa using hg
              | succ n =>
                  have hlt : n < rest.length := by
                    simpa using hn
                  have hlt2 : n < inds'.length := by
                    simpa using hn2
                  simpa using ih inds' hr n hlt hlt2

lemma quotient_roundtrip (c o s : ℚ) (hs : s ≠ 0)
    (hden : ((c - o) / s).den = 1) (hnn : 0 ≤ (c - o) / s) :
    ((((c - o) / s).num.toNat : ℚ)) * s + o = c := by
  have h1 : (0 : ℤ) ≤ ((c - o) / s).num := Rat.num_nonneg.mpr hnn
  have h2 : ((((c - o) / s).num.toNat : ℤ)) = ((c - o) / s).num := Int.toNat_of_nonneg h1
  have h3 : ((((c - o) / s).num : ℚ)) = (c - o) / s := by
    have h4 := Rat.num_div_den ((c - o) / s)
    rw [hden] at h4
    simpa using h4
  have h5 : ((((c - o) / s).num.toNat : ℚ)) = (c - o) / s := by
    rw [← h3]
    exact_mod_cast congrArg (fun z : ℤ => (z : ℚ)) h2
  rw [h5, div_mul_cancel₀ _ hs, sub_add_cancel]

/-- Claim C6: for a model successfully built via `from_unindexed` from payloads with
a common nonzero size and grid-aligned coordinates (all origin-relative quotients
non-negative, as the spec defines alignment), the index computed and stored for each
payload maps back through `(index * size) + origin` per axis to the payload's
original coordinates. -/
theorem from_unindexed_index_roundtrip {B : Type} [BlockInterface B] (blocks : List B)
    (bs : BlockSize) (inds : List BlockIndex)
    (hok : (BlockModel.from_unindexed blocks).isOk = true)
    (hbs : BlockModel.dimsOf blocks = some bs)
    (hx : bs.x_size ≠ 0) (hy : bs.y_size ≠ 0) (hz : bs.z_size ≠ 0)
    (hinds : BlockModel.gen_inds blocks (BlockModel.originOf blocks) bs = Except.ok inds)
    (hnn : ∀ b ∈ blocks, quotientsNonneg (BlockModel.originOf blocks) bs b) :
    ∀ (n : ℕ) (hn : n < blocks.length) (hn2 : n < inds.length),
      indexToCoords (inds.get ⟨n, hn2⟩) bs (BlockModel.originOf blocks)
        = BlockInterface.coordinates (blocks.get ⟨n, hn⟩) := by
  intro n hn hn2
  have hg := gen_inds_get blocks (BlockModel.originOf blocks) bs inds hinds n hn hn2
  have hb := hnn (blocks.get ⟨n, hn⟩) (List.get_mem blocks n hn)
  simp only [BlockModel.genInd] at hg
  split at hg
  · next hden =>
      have hq : Except.ok (α := BlockIndex) (ε := BmError)
          ⟨((((BlockInterface.coordinates (blocks.get ⟨n, hn⟩)).x
              - (BlockModel.originOf blocks).x) / bs.x_size)).num.toNat,
           ((((BlockInterface.coordinates (blocks.get ⟨n, hn⟩)).y
              - (BlockModel.originOf blocks).y) / bs.y_size)).num.toNat,
           ((((BlockInterface.coordinates (blocks.get ⟨n, hn⟩)).z
              - (BlockModel.originOf blocks).z) / bs.z_size)).num.toNat⟩
          = Except.ok (inds.get ⟨n, hn2⟩) := hg
      have hq2 := Except.ok.inj hq
      rw [← hq2]
      show (⟨_ * bs.x_size + (BlockModel.originOf blocks).x,
            _ * bs.y_size + (BlockModel.originOf blocks).y,
            _ * bs.z_size + (BlockModel.originOf blocks).z⟩ : BlockCoordinates)
          = BlockInterface.coordinates (blocks.get ⟨n, hn⟩)
      obtain ⟨hd1, hd2, hd3⟩ := hden
      obtain ⟨hb1, hb2, hb3⟩ := hb
      rw [quotient_roundtrip _ _ _ hx hd1 hb1, quotient_roundtrip _ _ _ hy hd2 hb2,
        quotient_roundtrip _ _ _ hz hd3 hb3]
  · exact Except.noConfusion hg

/-- Witness for C6 at the concrete two-block scenario `w6blocks`: the second block's
stored index `(2,3,2)` maps back to its coordinates `(2,3,4)`. -/
theorem from_unindexed_index_roundtrip_witness :
    indexToCoords ⟨2, 3, 2⟩ ⟨1, 1, 2⟩ (BlockModel.originOf w6blocks)
      = BlockInterface.coordinates (w6blocks.get ⟨1, by decide⟩) := by
  have h1 : BlockModel.originOf w6blocks = ⟨0, 0, 0⟩ := by
    simp [BlockModel.originOf, w6blocks, w6b1, w6b2, f32MAX, instBlockInterfaceBlock]
  have h3 : BlockModel.dimsOf w6blocks = some ⟨1, 1, 2⟩ := by
    simp [BlockModel.dimsOf, w6blocks, w6b1, w6b2, instBlockInterfaceBlock]
  have h2a : BlockModel.gen_inds w6blocks ⟨0, 0, 0⟩ ⟨1, 1, 2⟩
      = Except.ok [⟨0, 0, 0⟩, ⟨2, 3, 2⟩] := by
    simp only [BlockModel.gen_inds, BlockModel.genInd, w6blocks, w6b1, w6b2,
      instBlockInterfaceBlock]
    norm_num
    decide
  have h2 : BlockModel.gen_inds w6blocks (BlockModel.originOf w6blocks) ⟨1, 1, 2⟩
      = Except.ok [⟨0, 0, 0⟩, ⟨2, 3, 2⟩] := by
    rw [h1]
    exact h2a
  have hok : (BlockModel.from_unindexed w6blocks).isOk = true := by
    simp only [BlockModel.from_unindexed, h3, h1, h2a]
    rfl
  have hnn : ∀ b ∈ w6blocks, quotientsNonneg (BlockModel.originOf w6blocks) ⟨1, 1, 2⟩ b := by
    rw [h1]
    intro b hb
    rcases List.mem_cons.mp hb with rfl | hb2
    · simp [quotientsNonneg, w6b1, instBlockInterfaceBlock]
    · rcases List.mem_cons.mp hb2 with rfl | hb3
      · simp [quotientsNonneg, w6b2, instBlockInterfaceBlock]
        norm_num
      · cases hb3
  have happ := from_unindexed_index_roundtrip w6blocks ⟨1, 1, 2⟩ [⟨0, 0, 0⟩, ⟨2, 3, 2⟩]
    hok h3 (by norm_num) (by norm_num) (by norm_num) h2 hnn 1 (by decide) (by decide)
  have hget : ([⟨0, 0, 0⟩, ⟨2, 3, 2⟩] : List BlockIndex).get ⟨1, by decide⟩ = ⟨2, 3, 2⟩ := rfl
  rw [hget] at happ
  exact happ

lemma gen_inds_error_of_misaligned {B : Type} [BlockInterface B] (blocks : List B)
    (origin : BlockCoordinates) (bs : BlockSize)
    (h : ∃ b ∈ blocks, ¬ alignedTriple origin bs b) :
    BlockModel.gen_inds blocks origin bs = Except.error BmError.misaligned := by
  induction blocks with
  | nil =>
      obtain ⟨b, hb, hnb⟩ := h
      cases hb
  | cons a rest ih =>
      obtain ⟨b, hb, hnb⟩ := h
      simp only [BlockModel.gen_inds]
      rcases List.mem_cons.mp hb with rfl | h2
      · have ha : BlockModel.genInd origin bs b = Except.error BmError.misaligned := by
          simp only [BlockModel.genInd]
          rw [if_neg]
          exact fun hc => hnb hc
        rw [ha]
      · cases hga : BlockModel.genInd origin bs a with
        | error e =>
            have he : e = BmError.misaligned := by
              simp only [BlockModel.genInd] at hga
              split at hga
              · exact Except.noConfusion hga
              · injection hga with h3
                exact h3.symm
            rw [he]
        | ok ind =>
            rw [ih ⟨b, h2, hnb⟩]

/-- Claim C7 (counterexample): in the `negQuotBlocks` scenario the second payload's
x-axis quotient relative to the computed origin and the common size is the exact
integer `-1`, which is not a non-negative integer, yet `from_unindexed` succeeds
instead of aborting with the misaligned-coordinate failure: integrality is checked
but non-negativity is not, and the saturating cast silently maps `-1` to index 0. -/
theorem from_unindexed_negative_quotient_accepted :
    ((BlockInterface.coordinates negQuotB2).x - (BlockModel.originOf negQuotBlocks).x)
        / (BlockInterface.size negQuotB2).x_size = -1
      ∧ (BlockModel.from_unindexed negQuotBlocks).isOk = true := by
  have h1 : BlockModel.originOf negQuotBlocks = ⟨-1, 0, 0⟩ := by
    simp [BlockModel.originOf, negQuotBlocks, negQuotB1, negQuotB2, f32MAX,
      instBlockInterfaceBlock]
    norm_num
  constructor
  · rw [h1]
    simp [negQuotB2, instBlockInterfaceBlock]
  · have h3 : BlockModel.dimsOf negQuotBlocks = some ⟨-1, 1, 1⟩ := by
      simp [BlockModel.dimsOf, negQuotBlocks, negQuotB1, negQuotB2, instBlockInterfaceBlock]
    have h2 : BlockModel.gen_inds negQuotBlocks ⟨-1, 0, 0⟩ ⟨-1, 1, 1⟩
        = Except.ok [⟨0, 0, 0⟩, ⟨0, 0, 0⟩] := by
      simp only [BlockModel.gen_inds, BlockModel.genInd, negQuotBlocks, negQuotB1, negQuotB2,
        instBlockInterfaceBlock]
      norm_num
    simp only [BlockModel.from_unindexed, h3, h1, h2]
    rfl

/-- Claim C7 (amended): `from_unindexed` aborts with the inconsistent-size failure
whenever the size check fails (different reported sizes, or an empty input), before
any index is computed; when sizes are consistent it aborts with the
misaligned-coordinate failure whenever some payload's per-axis quotient is not an
exact integer. Non-negativity of the quotients is not checked. -/
theorem from_unindexed_precondition_failures {B : Type} [BlockInterface B] :
    (∀ blocks : List B, BlockModel.dimsOf blocks = none →
        BlockModel.from_unindexed blocks = Except.error BmError.inconsistentSize)
      ∧ (∀ (blocks : List B) (bs : BlockSize), BlockModel.dimsOf blocks = some bs →
          (∃ b ∈ blocks, ¬ alignedTriple (BlockModel.originOf blocks) bs b) →
          BlockModel.from_unindexed blocks = Except.error BmError.misaligned) := by
  constructor
  · intro blocks h
    simp only [BlockModel.from_unindexed, h]
  · intro blocks bs hbs hex
    simp only [BlockModel.from_unindexed, hbs,
      gen_inds_error_of_misaligned blocks (BlockModel.originOf blocks) bs hex]

/-- Witness for C7's amended theorem at concrete inputs: inconsistent sizes give the
inconsistent-size abort, and a fractional quotient gives the misaligned abort. -/
theorem from_unindexed_precondition_failures_witness :
    BlockModel.from_unindexed mismatchBlocks = Except.error BmError.inconsistentSize
      ∧ BlockModel.from_unindexed misalignedBlocks = Except.error BmError.misaligned := by
  constructor
  · exact from_unindexed_precondition_failures.1 mismatchBlocks
      (by simp [BlockModel.dimsOf, mismatchBlocks, instBlockInterfaceBlock])
  · refine from_unindexed_precondition_failures.2 misalignedBlocks ⟨2, 1, 1⟩
      (by simp [BlockModel.dimsOf, misalignedBlocks, instBlockInterfaceBlock]) ?_
    refine ⟨⟨⟨1, 0, 0⟩, ⟨2, 1, 1⟩, ⟨0, 0, 0⟩⟩, by simp [misalignedBlocks], ?_⟩
    have h1 : BlockModel.originOf misalignedBlocks = ⟨0, 0, 0⟩ := by
      simp [BlockModel.originOf, misalignedBlocks, f32MAX, instBlockInterfaceBlock]
    rw [h1]
    intro hc
    have h2 : (((1 : ℚ) - 0) / 2).den = 1 := by
      simpa [alignedTriple, instBlockInterfaceBlock] using hc.1
    norm_num at h2

lemma readBlocks_error_of_firstRowError {E B : Type} (rows : List (Except E B)) (e : E)
    (h : firstRowError rows = some e) : readBlocks rows = Except.error e := by
  induction rows with
  | nil => simp [firstRowError] at h
  | cons r rest ih =>
      cases r with
      | error e2 =>
          have h2 : e2 = e := by
            simpa [firstRowError, List.findSome?_cons] using h
          subst h2
          simp [readBlocks]
      | ok b =>
          have h2 : firstRowError rest = some e := by
            simpa [firstRowError, List.findSome?_cons] using h
          simp only [readBlocks]
          rw [ih h2]

/-- Claim C9: for both CSV bulk loaders, a reader-open failure or the first failing
row is returned to the caller as a recoverable error value (`LoadOutcome.err`, the
`Result::Err` of the source), never as a fatal panic, and no model is constructed in
that case since construction only happens after all rows have been read. -/
theorem csv_row_failure_recoverable {E B : Type} [BlockInterface B]
    (rows : List (Except E B)) (e : E) (hrow : firstRowError rows = some e) :
    (from_unindexed_csv (Except.ok rows) = LoadOutcome.err e
        ∧ from_indexed_csv (Except.ok rows) = LoadOutcome.err e)
      ∧ (from_unindexed_csv (B := B) (Except.error e) = LoadOutcome.err e
        ∧ from_indexed_csv (B := B) (Except.error e) = LoadOutcome.err e) := by
  refine ⟨⟨?_, ?_⟩, rfl, rfl⟩
  · simp only [from_unindexed_csv, readBlocks_error_of_firstRowError rows e hrow]
  · simp only [from_indexed_csv, readBlocks_error_of_firstRowError rows e hrow]

/-- Witness for C9 at a concrete row stream whose second row fails with error code 7. -/
theorem csv_row_failure_recoverable_witness :
    from_unindexed_csv (Except.ok w9rows) = LoadOutcome.err 7
      ∧ from_indexed_csv (Except.ok w9rows) = LoadOutcome.err 7 := by
  exact (csv_row_failure_recoverable w9rows 7 rfl).1
